import Mathlib

/-!
Verification of the SPACESCOPE ingestion pipeline.

Shallow embedding of the repository's fetch client
(`backend/app/services/nasa_apis.py`, class `NASAAPIBase`), the Celery
ingestion tasks (`backend/app/tasks/nasa_ingestion.py`) and the relevant
store models (`backend/app/models/db_models.py`).

JSON payloads are modelled by the inductive type `Json`; numbers are
modelled as integers (the claims under study never depend on fractional
values).  Python dictionaries appearing as JSON objects or as keyword
parameter maps are association lists.  Python-level failures
(`KeyError`, `AttributeError`, `TypeError`, `ValueError`, `NameError`,
database `IntegrityError`) are represented with `Except String`.
-/

set_option autoImplicit false

namespace Spacescope

/-- A JSON value, as produced by `response.json()` / `json.loads`. -/
inductive Json where
  | null : Json
  | bool : Bool → Json
  | num : Int → Json
  | str : String → Json
  | arr : List Json → Json
  | obj : List (String × Json) → Json
deriving Repr

mutual

/-- Decidable equality on JSON values. -/
def Json.decEq : (a b : Json) → Decidable (a = b)
  | .null, .null => isTrue rfl
  | .bool a, .bool b =>
      if h : a = b then isTrue (by rw [h])
      else isFalse (fun hh => h (Json.bool.inj hh))
  | .num a, .num b =>
      if h : a = b then isTrue (by rw [h])
      else isFalse (fun hh => h (Json.num.inj hh))
  | .str a, .str b =>
      if h : a = b then isTrue (by rw [h])
      else isFalse (fun hh => h (Json.str.inj hh))
  | .arr a, .arr b =>
      match Json.decEqList a b with
      | isTrue h => isTrue (by rw [h])
      | isFalse h => isFalse (fun hh => h (Json.arr.inj hh))
  | .obj a, .obj b =>
      match Json.decEqObj a b with
      | isTrue h => isTrue (by rw [h])
      | isFalse h => isFalse (fun hh => h (Json.obj.inj hh))
  | .null, .bool _ | .null, .num _ | .null, .str _
  | .null, .arr _ | .null, .obj _
  | .bool _, .null | .bool _, .num _ | .bool _, .str _
  | .bool _, .arr _ | .bool _, .obj _
  | .num _, .null | .num _, .bool _ | .num _, .str _
  | .num _, .arr _ | .num _, .obj _
  | .str _, .null | .str _, .bool _ | .str _, .num _
  | .str _, .arr _ | .str _, .obj _
  | .arr _, .null | .arr _, .bool _ | .arr _, .num _
  | .arr _, .str _ | .arr _, .obj _
  | .obj _, .null | .obj _, .bool _ | .obj _, .num _
  | .obj _, .str _ | .obj _, .arr _ => isFalse (fun hh => Json.noConfusion hh)

/-- Decidable equality on JSON arrays. -/
def Json.decEqList : (a b : List Json) → Decidable (a = b)
  | [], [] => isTrue rfl
  | [], _ :: _ => isFalse (fun hh => List.noConfusion hh)
  | _ :: _, [] => isFalse (fun hh => List.noConfusion hh)
  | x :: xs, y :: ys =>
      match Json.decEq x y with
      | isFalse h => isFalse (fun hh => h (List.cons.inj hh).1)
      | isTrue h1 =>
          match Json.decEqList xs ys with
          | isTrue h2 => isTrue (by rw [h1, h2])
          | isFalse h2 => isFalse (fun hh => h2 (List.cons.inj hh).2)

/-- Decidable equality on JSON object field lists. -/
def Json.decEqObj : (a b : List (String × Json)) → Decidable (a = b)
  | [], [] => isTrue rfl
  | [], _ :: _ => isFalse (fun hh => List.noConfusion hh)
  | _ :: _, [] => isFalse (fun hh => List.noConfusion hh)
  | (k, v) :: xs, (l, w) :: ys =>
      if hk : k = l then
        match Json.decEq v w with
        | isFalse h => isFalse (fun hh =>
            h (congrArg Prod.snd (List.cons.inj hh).1))
        | isTrue h1 =>
            match Json.decEqObj xs ys with
            | isTrue h2 => isTrue (by rw [hk, h1, h2])
            | isFalse h2 => isFalse (fun hh => h2 (List.cons.inj hh).2)
      else isFalse (fun hh => hk (congrArg Prod.fst (List.cons.inj hh).1))

end

instance : DecidableEq Json := Json.decEq

/-- Python truthiness (`if data:`): `None`, `False`, `0`, `""`, `[]` and
`{}` are falsy, everything else truthy. -/
def truthy : Json → Bool
  | .null => false
  | .bool b => b
  | .num n => n != 0
  | .str s => !s.isEmpty
  | .arr xs => !xs.isEmpty
  | .obj fs => !fs.isEmpty

/-- `d.get(k)` — `None` when the key is absent; raises `AttributeError`
when the receiver is not a dict. -/
def Json.get? : Json → String → Except String (Option Json)
  | .obj fs, k => .ok ((fs.find? (fun kv => kv.1 == k)).map (fun kv => kv.2))
  | _, _ => .error "AttributeError"

/-- `d.get(k, default)`. -/
def Json.getD (d : Json) (k : String) (dflt : Json) : Except String Json :=
  match d.get? k with
  | .ok (some v) => .ok v
  | .ok none => .ok dflt
  | .error e => .error e

/-- `d[k]` with a string key — `KeyError` when the key is absent from a
dict, `TypeError` on a non-dict receiver. -/
def Json.item : Json → String → Except String Json
  | .obj fs, k =>
      match fs.find? (fun kv => kv.1 == k) with
      | some kv => .ok kv.2
      | none => .error ("KeyError: " ++ k)
  | _, _ => .error "TypeError"

/-- `x[0]` — first element of a list, first character of a string;
`KeyError` on a dict (integer key absent), `TypeError` otherwise. -/
def pyIndex0 : Json → Except String Json
  | .arr (x :: _) => .ok x
  | .arr [] => .error "IndexError"
  | .str s =>
      match s.toList with
      | c :: _ => .ok (.str (String.singleton c))
      | [] => .error "IndexError"
  | .obj _ => .error "KeyError: 0"
  | _ => .error "TypeError"

/-- `k in d` — key membership for dicts, element membership for lists,
substring test for strings, `TypeError` otherwise. -/
def pyContains (d : Json) (k : String) : Except String Bool :=
  match d with
  | .obj fs => .ok (fs.any (fun kv => kv.1 == k))
  | .arr xs => .ok (xs.any (fun x => x == Json.str k))
  | .str s => .ok (decide (2 ≤ (s.splitOn k).length))
  | _ => .error "TypeError"

/-- `for x in d` — iterating a list yields its elements, a dict its keys,
a string its characters; `TypeError` otherwise. -/
def pyIter : Json → Except String (List Json)
  | .arr xs => .ok xs
  | .obj fs => .ok (fs.map (fun kv => Json.str kv.1))
  | .str s => .ok (s.toList.map (fun c => Json.str (String.singleton c)))
  | _ => .error "TypeError"

/-- `d.values()` — `AttributeError` on anything but a dict. -/
def pyValues : Json → Except String (List Json)
  | .obj fs => .ok (fs.map (fun kv => kv.2))
  | _ => .error "AttributeError"

/-- `isinstance(data, list)`. -/
def Json.isList : Json → Bool
  | .arr _ => true
  | _ => false

/-- `data if isinstance(data, list) else [data]`. -/
def apodItems : Json → List Json
  | .arr xs => xs
  | d => [d]

/-- `float(x)` — numbers and booleans coerce; strings go through the
numeric parser `num` (`ValueError` when unparsable); `None`, lists and
dicts raise `TypeError`.  The parser for numeric strings is a parameter
of the embedding (it stands for CPython's `float` grammar). -/
def pyFloat (num : String → Option Int) : Json → Except String Int
  | .num n => .ok n
  | .bool b => .ok (if b then 1 else 0)
  | .str s =>
      match num s with
      | some n => .ok n
      | none => .error "ValueError"
  | _ => .error "TypeError"

/-! ## Fetch client: `NASAAPIBase.fetch` (`app/services/nasa_apis.py`)

`fetch` takes an endpoint URL and an optional keyword-parameter dict,
stamps the service API key into the dict, consults the Redis read-through
cache, and on a miss performs up to `max_retries` network attempts.
The observable outcome of one network attempt is modelled by
`AttemptResult`; the attempt schedule of the endpoint is a function
`Nat → AttemptResult` giving the outcome of the i-th attempt. -/

/-- A keyword-parameter dictionary (`params`).  Python dict keys are
unique; insertion order is preserved. -/
abbrev ParamDict := List (String × Json)

/-- `params[k] = v` — overwrite in place when the key exists (keeping its
position, as CPython dicts do; dict keys are unique), append otherwise. -/
def dictSet : ParamDict → String → Json → ParamDict
  | [], k, v => [(k, v)]
  | kv :: d, k, v => if kv.1 == k then (k, v) :: d else kv :: dictSet d k v

/-- `params.get(k)`, reading a parameter dict. -/
def dictGet (d : ParamDict) (k : String) : Option Json :=
  (d.find? (fun kv => kv.1 == k)).map (fun kv => kv.2)

/-- Insert one pair into a key-sorted parameter list. -/
def insertByKey (p : String × Json) : ParamDict → ParamDict
  | [] => [p]
  | q :: qs => if p.1 ≤ q.1 then p :: q :: qs else q :: insertByKey p qs

/-- Sort a parameter dict by key — the `sort_keys=True` of
`json.dumps(params, sort_keys=True)` used to build the cache key. -/
def sortParams : ParamDict → ParamDict
  | [] => []
  | p :: ps => insertByKey p (sortParams ps)

/-- The cache key
`f"{self.__class__.__name__}:{url}:{json.dumps(params, sort_keys=True)}"`:
service class name, url, and the key-sorted parameter dict (standing for
its stable serialization). -/
structure CacheKey where
  source : String
  url : String
  params : ParamDict
deriving DecidableEq, Repr

/-- One Redis cache entry: key, cached payload, expiry instant.  The
stored payload stands for `json.dumps(data, default=str)`; reading it
back through `json.loads` is the identity on payloads that came from
`response.json()`. -/
abbrev Cache := List (CacheKey × Json × Nat)

/-- `redis.get(key)` at instant `now` — an entry whose TTL has elapsed is
gone. -/
def cacheGet (c : Cache) (k : CacheKey) (now : Nat) : Option Json :=
  match c.find? (fun e => decide (e.1 = k)) with
  | some e => if now < e.2.2 then some e.2.1 else none
  | none => none

/-- `redis.setex(key, ttl, value)` issued at instant `now`. -/
def cacheSet (c : Cache) (k : CacheKey) (v : Json) (expiry : Nat) : Cache :=
  (k, v, expiry) :: c.filter (fun e => !(decide (e.1 = k)))

/-- Observable outcome of one network attempt inside `fetch`:
an HTTP response with its status and, for 200 responses, the parsed JSON
body (`none` when `response.json()` itself raises), a total-budget
timeout (`asyncio.TimeoutError`), or any other exception. -/
inductive AttemptResult where
  | response : Nat → Option Json → AttemptResult
  | timeout : AttemptResult
  | exn : AttemptResult
deriving DecidableEq, Repr

/-- The retry loop `for attempt in range(self.max_retries)` of `fetch`.
Returns the result, the Redis state, and the number of network attempts
made.  A 200 response caches and returns the payload; a 200 response
whose body fails to parse is caught by `except Exception` and returns
`None`; a 429 sleeps and retries; any other status returns `None` at
once; a timeout retries (the `attempt < max_retries - 1` guard only
skips the final sleep); any other exception returns `None`. -/
def fetchLoop (net : Nat → AttemptResult) (key : CacheKey) (ttl now : Nat) :
    Nat → Nat → Option Cache → Option Json × Option Cache × Nat
  | _, 0, redis => (none, redis, 0)
  | attempt, remaining + 1, redis =>
    match net attempt with
    | .response status body =>
        if status == 200 then
          match body with
          | some p =>
              (some p, redis.map (fun c => cacheSet c key p (now + ttl)), 1)
          | none => (none, redis, 1)
        else if status == 429 then
          let r := fetchLoop net key ttl now (attempt + 1) remaining redis
          (r.1, r.2.1, r.2.2 + 1)
        else (none, redis, 1)
    | .timeout =>
        let r := fetchLoop net key ttl now (attempt + 1) remaining redis
        (r.1, r.2.1, r.2.2 + 1)
    | .exn => (none, redis, 1)

/-- `params['api_key'] = self.api_key`, applied to the dict `fetch`
works with.  `if not params: params = {}` rebinds the name to a fresh
dict when the caller passed `None` or an empty dict. -/
def effParams (apiKey : String) (callerParams : Option ParamDict) : ParamDict :=
  match callerParams with
  | none => dictSet [] "api_key" (.str apiKey)
  | some d =>
      if d.isEmpty then dictSet [] "api_key" (.str apiKey)
      else dictSet d "api_key" (.str apiKey)

/-- Contents of the caller's own dict after `fetch` returns: mutated in
place only when the caller passed a non-empty dict (otherwise `params`
was rebound and the caller's dict is untouched). -/
def callerParamsAfter (apiKey : String) (callerParams : Option ParamDict) :
    Option ParamDict :=
  match callerParams with
  | none => none
  | some d =>
      if d.isEmpty then some d
      else some (dictSet d "api_key" (.str apiKey))

/-- The cache key `fetch` builds for a call. -/
def fetchKey (cls url apiKey : String) (callerParams : Option ParamDict) :
    CacheKey :=
  ⟨cls, url, sortParams (effParams apiKey callerParams)⟩

/-- Everything observable about one `fetch` call: the returned value,
the Redis state after the call, how many network attempts were made, and
the contents of the caller's params dict afterwards. -/
structure FetchOut where
  result : Option Json
  redis : Option Cache
  attempts : Nat
  callerParams : Option ParamDict
deriving DecidableEq, Repr

/-- `NASAAPIBase.fetch(url, params)`.  `cls` is the concrete service
class name, `apiKey` the key the service was constructed with, `redis`
the optional Redis client state (`none` when the service was built
without one, as the ingestion tasks do), `now` the current instant. -/
def fetch (cls apiKey : String) (maxRetries ttl : Nat)
    (net : Nat → AttemptResult) (redis : Option Cache) (now : Nat)
    (url : String) (callerParams : Option ParamDict) : FetchOut :=
  let key := fetchKey cls url apiKey callerParams
  let after := callerParamsAfter apiKey callerParams
  match redis with
  | some c =>
      match cacheGet c key now with
      | some v => ⟨some v, some c, 0, after⟩
      | none =>
          let r := fetchLoop net key ttl now 0 maxRetries (some c)
          ⟨r.1, r.2.1, r.2.2, after⟩
  | none =>
      let r := fetchLoop net key ttl now 0 maxRetries none
      ⟨r.1, r.2.1, r.2.2, after⟩

/-! ## Store models (`app/models/db_models.py`)

Only the columns the ingestion tasks write are modelled.  Column values
are the Python values the task passes to the model constructor: JSON
fragments (`Option Json`, `none` standing for SQL `NULL`), parsed dates
(as normalized strings) and coerced numbers.  `fetched_at` is the
`datetime.utcnow()` instant, modelled as the task's `now` parameter.

A `commit` checks the `unique=True` column constraints; a violation
raises `IntegrityError` and rolls the whole transaction back (nothing of
the staged batch is persisted).  Per SQL semantics, `NULL` values never
conflict. -/

/-- One row of the `apod` table.  `url` and `date` carry
`unique=True`. -/
structure ApodRow where
  title : Option Json
  explanation : Option Json
  url : Option Json
  hdurl : Option Json
  media_type : Json
  copyright : Option Json
  date : Option Json
  service_version : Option Json
  fetched_at : Nat
deriving DecidableEq, Repr

/-- Whether two `apod` rows violate a unique column (`url` or `date`);
`NULL`s do not conflict. -/
def apodConflict (a b : ApodRow) : Bool :=
  (match a.date, b.date with
   | some x, some y => x == y
   | _, _ => false) ||
  (match a.url, b.url with
   | some x, some y => x == y
   | _, _ => false)

/-- Commit a staged batch of `apod` rows: each row is checked against
the store built so far; the first violation aborts the whole
transaction. -/
def commitApod : List ApodRow → List ApodRow → Except String (List ApodRow)
  | [], store => .ok store
  | r :: rest, store =>
      if store.any (fun s => apodConflict s r) then .error "IntegrityError"
      else commitApod rest (store ++ [r])

/-- One row of the `asteroids_neows` table.  `neo_id` carries
`unique=True`. -/
structure AsteroidRow where
  neo_id : Option Json
  name : Option Json
  nasa_jpl_url : Option Json
  absolute_magnitude : Option Json
  estimated_diameter_min_m : Option Json
  estimated_diameter_max_m : Option Json
  is_potentially_hazardous : Json
  close_approach_date : Option String
  close_approach_velocity_km_s : Int
  close_approach_distance_km : Int
  relative_velocity : Option Json
  miss_distance : Option Json
  orbiting_body : Option Json
  fetched_at : Nat
deriving DecidableEq, Repr

/-- Whether two `asteroids_neows` rows violate the `neo_id` uniqueness
constraint; `NULL`s do not conflict. -/
def asteroidConflict (a b : AsteroidRow) : Bool :=
  match a.neo_id, b.neo_id with
  | some x, some y => x == y
  | _, _ => false

/-- The SQLAlchemy filter `AsteroidNeoWS.neo_id == neo_id` applied to a
row: `== None` is translated to `IS NULL`, so a `None` id matches
exactly the rows whose column is `NULL`. -/
def rowMatch (valId : Option Json) (r : AsteroidRow) : Bool :=
  match valId, r.neo_id with
  | some v, some w => v == w
  | none, none => true
  | _, _ => false

/-- Commit a staged batch of `asteroids_neows` rows: each row is checked
against the store built so far for the `neo_id` uniqueness constraint
(`NULL`s do not conflict); the first violation raises `IntegrityError`
and aborts the whole transaction. -/
def commitAsteroids :
    List AsteroidRow → List AsteroidRow → Except String (List AsteroidRow)
  | [], store => .ok store
  | r :: rest, store =>
      if store.any (fun s => asteroidConflict s r) then .error "IntegrityError"
      else commitAsteroids rest (store ++ [r])

/-! ## Ingestion tasks (`app/tasks/nasa_ingestion.py`)

A task either returns its status dict or lets an exception escape into
`raise self.retry(exc=exc, countdown=60)` — modelled by `TaskResult`.
The store is threaded explicitly; `data` is the value the service's
fetch produced. -/

/-- Outcome of one execution of a Celery task body: the returned status
dict, or the exception re-raised through `self.retry`. -/
inductive TaskResult where
  | returned : Json → TaskResult
  | retryRaised : String → TaskResult
deriving DecidableEq, Repr

/-- `{"status": "success", "count": n}`. -/
def successCountJson (n : Int) : Json :=
  .obj [("status", .str "success"), ("count", .num n)]

/-- `{"status": "error", "message": "No data returned"}`. -/
def apodNoDataJson : Json :=
  .obj [("status", .str "error"), ("message", .str "No data returned")]

/-- `{"status": "success"}`. -/
def successJson : Json := .obj [("status", .str "success")]

/-- `{"status": "error"}`. -/
def errorJson : Json := .obj [("status", .str "error")]

/-- Names bound in the frame of the task function `ingest_apod` when its
success `return` executes.  `items` is a local of the nested coroutine
`save_apod` only, so it is absent here. -/
def ingestApodLocals : List String := ["self", "service", "data", "save_apod"]

/-- The `APOD(...)` constructor call inside `save_apod`: every field is
`item.get(...)`, except `media_type` which defaults to `"image"`. -/
def mkApodRow (item : Json) (now : Nat) : Except String ApodRow := do
  let title ← item.get? "title"
  let explanation ← item.get? "explanation"
  let url ← item.get? "url"
  let hdurl ← item.get? "hdurl"
  let media_type ← item.getD "media_type" (.str "image")
  let copyright ← item.get? "copyright"
  let date ← item.get? "date"
  let service_version ← item.get? "service_version"
  pure { title := title, explanation := explanation, url := url,
         hdurl := hdurl, media_type := media_type, copyright := copyright,
         date := date, service_version := service_version, fetched_at := now }

/-- The `for item in items:` loop of `save_apod`: build one `APOD` row
per item (every row is staged with `session.add`; the first item-level
error aborts the coroutine). -/
def mkApodRows (now : Nat) : List Json → Except String (List ApodRow)
  | [] => .ok []
  | it :: rest =>
      match mkApodRow it now with
      | .error e => .error e
      | .ok r =>
          match mkApodRows now rest with
          | .error e => .error e
          | .ok rs => .ok (r :: rs)

/-- The task `ingest_apod`: on truthy data, `save_apod` wraps every item
in an `APOD` row (no existence check) and commits; the success `return`
then evaluates `len(items) if isinstance(data, list) else 1`, and for
list data the name `items` is resolved in the task frame
(`ingestApodLocals`), where it is not bound — a `NameError` that the
task's `except Exception` turns into `self.retry`. -/
def ingest_apod (data : Option Json) (store : List ApodRow) (now : Nat) :
    TaskResult × List ApodRow :=
  match data with
  | none => (.returned apodNoDataJson, store)
  | some d =>
      if truthy d then
        match mkApodRows now (apodItems d) with
        | .error e => (.retryRaised e, store)
        | .ok rows =>
            match commitApod rows store with
            | .error e => (.retryRaised e, store)
            | .ok store2 =>
                if d.isList then
                  if ingestApodLocals.contains "items" then
                    (.returned (successCountJson (apodItems d).length), store2)
                  else
                    (.retryRaised "NameError: name items is not defined",
                     store2)
                else (.returned (successCountJson 1), store2)
      else (.returned apodNoDataJson, store)

/-- `datetime.fromisoformat(v.replace('Z', '+00:00')) if v else None`
for `v = approach.get('close_approach_date_full')`.  The ISO-8601
parser of the `datetime` library is the parameter `iso` (`none` models
`ValueError`); calling `.replace` on a truthy non-string raises
`AttributeError`. -/
def parseCloseApproachDate (iso : String → Option String) (v : Option Json) :
    Except String (Option String) :=
  match v with
  | none => .ok none
  | some w =>
      if truthy w then
        match w with
        | .str s =>
            match iso (s.replace "Z" "+00:00") with
            | some t => .ok (some t)
            | none => .error "ValueError"
        | _ => .error "AttributeError"
      else .ok none

/-- The payload fields of the `AsteroidNeoWS(...)` constructor call
inside `save_asteroids` — everything computed from `asteroid` and
`approach`, in source order (the natural key `neo_id` and `fetched_at`
are supplied separately). -/
structure AsteroidFields where
  name : Option Json
  nasa_jpl_url : Option Json
  absolute_magnitude : Option Json
  estimated_diameter_min_m : Option Json
  estimated_diameter_max_m : Option Json
  is_potentially_hazardous : Json
  close_approach_date : Option String
  close_approach_velocity_km_s : Int
  close_approach_distance_km : Int
  relative_velocity : Option Json
  miss_distance : Option Json
  orbiting_body : Option Json
deriving DecidableEq, Repr

/-- Field extraction of the `AsteroidNeoWS(...)` constructor call,
field for field in source order.  `num` is the numeric-string grammar of
Python's `float` (`none` models `ValueError`). -/
def mkAsteroidFields (iso : String → Option String)
    (num : String → Option Int) (a : Json) (approach : Json) :
    Except String AsteroidFields := do
  let name ← a.get? "name"
  let jpl ← a.get? "nasa_jpl_url"
  let mag ← a.get? "absolute_magnitude_h"
  let ed ← a.item "estimated_diameter"
  let meters ← ed.item "meters"
  let dmin ← meters.get? "estimated_diameter_min"
  let ed2 ← a.item "estimated_diameter"
  let meters2 ← ed2.item "meters"
  let dmax ← meters2.get? "estimated_diameter_max"
  let hazardous ← a.getD "is_potentially_hazardous_asteroid" (.bool false)
  let cadRaw ← approach.get? "close_approach_date_full"
  let cad ← parseCloseApproachDate iso cadRaw
  let rv ← approach.item "relative_velocity"
  let kps ← rv.getD "kilometers_per_second" (.num 0)
  let vel ← pyFloat num kps
  let md ← approach.item "miss_distance"
  let km ← md.getD "kilometers" (.num 0)
  let dist ← pyFloat num km
  let rvOpt ← approach.get? "relative_velocity"
  let mdOpt ← approach.get? "miss_distance"
  let ob ← approach.get? "orbiting_body"
  pure { name := name, nasa_jpl_url := jpl, absolute_magnitude := mag,
         estimated_diameter_min_m := dmin, estimated_diameter_max_m := dmax,
         is_potentially_hazardous := hazardous, close_approach_date := cad,
         close_approach_velocity_km_s := vel,
         close_approach_distance_km := dist, relative_velocity := rvOpt,
         miss_distance := mdOpt, orbiting_body := ob }

/-- The full `AsteroidNeoWS(...)` constructor call: the extracted
fields together with the natural key `neo_id` and
`fetched_at=datetime.utcnow()`. -/
def mkAsteroidRow (iso : String → Option String) (num : String → Option Int)
    (now : Nat) (a : Json) (neoId : Option Json) (approach : Json) :
    Except String AsteroidRow :=
  match mkAsteroidFields iso num a approach with
  | .error e => .error e
  | .ok f =>
      .ok { neo_id := neoId, name := f.name, nasa_jpl_url := f.nasa_jpl_url,
            absolute_magnitude := f.absolute_magnitude,
            estimated_diameter_min_m := f.estimated_diameter_min_m,
            estimated_diameter_max_m := f.estimated_diameter_max_m,
            is_potentially_hazardous := f.is_potentially_hazardous,
            close_approach_date := f.close_approach_date,
            close_approach_velocity_km_s := f.close_approach_velocity_km_s,
            close_approach_distance_km := f.close_approach_distance_km,
            relative_velocity := f.relative_velocity,
            miss_distance := f.miss_distance,
            orbiting_body := f.orbiting_body, fetched_at := now }

/-- One iteration of the inner `for asteroid in asteroids_list` loop of
`save_asteroids`: look up the `id`, query for an existing row, skip when
found, otherwise build and stage a row from the first close approach —
when there is one.  The session factory is created with
`autoflush=False` (`app/db/database.py`), so the `SELECT` sees only the
committed `store`; rows pending in `staged` (added but not yet
committed) are invisible to the query. -/
def processAsteroid (iso : String → Option String) (num : String → Option Int)
    (now : Nat) (store staged : List AsteroidRow) (a : Json) :
    Except String (List AsteroidRow) :=
  match a.get? "id" with
  | .error e => .error e
  | .ok neoId =>
      if store.any (rowMatch neoId) then .ok staged
      else
        match a.getD "close_approach_data" (.arr []) with
        | .error e => .error e
        | .ok ca =>
            if truthy ca then
              match pyIndex0 ca with
              | .error e => .error e
              | .ok approach =>
                  match mkAsteroidRow iso num now a neoId approach with
                  | .error e => .error e
                  | .ok row => .ok (staged ++ [row])
            else .ok staged

/-- The inner loop of `save_asteroids` over one `asteroids_list`. -/
def saveItems (iso : String → Option String) (num : String → Option Int)
    (now : Nat) (store : List AsteroidRow) :
    List Json → List AsteroidRow → Except String (List AsteroidRow)
  | [], staged => .ok staged
  | a :: rest, staged =>
      match processAsteroid iso num now store staged a with
      | .error e => .error e
      | .ok staged2 => saveItems iso num now store rest staged2

/-- The outer loop of `save_asteroids` over
`data['near_earth_objects'].values()`. -/
def saveGroups (iso : String → Option String) (num : String → Option Int)
    (now : Nat) (store : List AsteroidRow) :
    List Json → List AsteroidRow → Except String (List AsteroidRow)
  | [], staged => .ok staged
  | g :: gs, staged =>
      match pyIter g with
      | .error e => .error e
      | .ok items =>
          match saveItems iso num now store items staged with
          | .error e => .error e
          | .ok staged2 => saveGroups iso num now store gs staged2

/-- The task `ingest_asteroids_today`: guard
`if data and 'near_earth_objects' in data:`, then `save_asteroids` over
the values of `data['near_earth_objects']`, then `session.commit()`,
which enforces the `neo_id` uniqueness constraint over the staged batch.
Any exception — item-level or commit-time — escapes into `self.retry`
and the transaction is rolled back. -/
def ingest_asteroids_today (iso : String → Option String)
    (num : String → Option Int) (data : Option Json)
    (store : List AsteroidRow) (now : Nat) : TaskResult × List AsteroidRow :=
  match data with
  | none => (.returned errorJson, store)
  | some d =>
      if truthy d then
        match pyContains d "near_earth_objects" with
        | .error e => (.retryRaised e, store)
        | .ok false => (.returned errorJson, store)
        | .ok true =>
            match d.item "near_earth_objects" with
            | .error e => (.retryRaised e, store)
            | .ok neo =>
                match pyValues neo with
                | .error e => (.retryRaised e, store)
                | .ok groups =>
                    match saveGroups iso num now store groups [] with
                    | .error e => (.retryRaised e, store)
                    | .ok staged =>
                        match commitAsteroids staged store with
                        | .error e => (.retryRaised e, store)
                        | .ok store2 => (.returned successJson, store2)
      else (.returned errorJson, store)

/-! ## Orchestrator (`ingest_all_nasa_data`) -/

/-- The sub-tasks `ingest_all_nasa_data` launches with `.delay()`, in
source order.  (Two DONKI tasks; no task exists for GIBS, OpenScience,
SatelliteSituationCenter or TrekWMS.) -/
def ingestAllSubtasks : List String :=
  ["ingest_apod", "ingest_asteroids_today", "ingest_donki_flares",
   "ingest_donki_cme", "ingest_eonet_events", "ingest_epic_imagery",
   "ingest_habitable_exoplanets", "ingest_insight_weather",
   "ingest_nasa_images", "ingest_tle_data", "ingest_cneos_data",
   "ingest_techport_projects", "ingest_techtransfer_spinoffs"]

/-- The dict `ingest_all_nasa_data` returns. -/
structure BatchResult where
  status : String
  task_count : Nat
  task_ids : List Nat
deriving DecidableEq, Repr

/-- The task `ingest_all_nasa_data`: `.delay()` enqueues each sub-task
without waiting for it (the broker's id assignment is the parameter
`enqueue`, applied to the position and name of the sub-task), and the
returned dict reports `len(tasks)` and one id per enqueued task. -/
def ingest_all_nasa_data (enqueue : Nat → String → Nat) : BatchResult :=
  let ids := ingestAllSubtasks.enum.map (fun p => enqueue p.1 p.2)
  { status := "queued", task_count := ids.length, task_ids := ids }

/-! ## Invariants -/

/-- The `apod` table invariant: no two rows violate a unique column. -/
def apodInv (store : List ApodRow) : Prop :=
  store.Pairwise (fun a b => apodConflict a b = false)

/-- The `asteroids_neows` table invariant: at most one row per non-null
`neo_id`. -/
def asteroidInv (store : List AsteroidRow) : Prop :=
  store.Pairwise (fun a b => asteroidConflict a b = false)

/-! ## Concrete sample payloads used in counterexamples and witnesses -/

/-- A single-item APOD payload. -/
def apodSample : Json :=
  .obj [("date", .str "2024-06-01"), ("url", .str "https://apod/x"),
        ("title", .str "T")]

/-- The row `ingest_apod` builds from `apodSample` at instant 7. -/
def apodSampleRow7 : ApodRow :=
  { title := some (.str "T"), explanation := none,
    url := some (.str "https://apod/x"), hdurl := none,
    media_type := .str "image", copyright := none,
    date := some (.str "2024-06-01"), service_version := none,
    fetched_at := 7 }

/-- A stored APOD row whose date is `2025-03-03`. -/
def apodExistingRow : ApodRow :=
  { title := none, explanation := none, url := none, hdurl := none,
    media_type := .str "image", copyright := none,
    date := some (.str "2025-03-03"), service_version := none,
    fetched_at := 0 }

/-- A stored APOD row whose date is `2024-12-25`. -/
def apodStoredRowY : ApodRow :=
  { title := none, explanation := none,
    url := some (.str "https://apod/y"), hdurl := none,
    media_type := .str "image", copyright := none,
    date := some (.str "2024-12-25"), service_version := none,
    fetched_at := 1 }

/-- A close-approach record as NeoWS serves it (date field absent). -/
def neowsApproach : Json :=
  .obj [("relative_velocity", .obj [("kilometers_per_second", .num 5)]),
        ("miss_distance", .obj [("kilometers", .num 100)]),
        ("orbiting_body", .str "Earth")]

/-- A well-formed NeoWS asteroid with id `i`. -/
def neowsGood (i : Int) : Json :=
  .obj [("id", .num i), ("name", .str "A"),
        ("close_approach_data", .arr [neowsApproach]),
        ("estimated_diameter",
          .obj [("meters",
            .obj [("estimated_diameter_min", .num 1),
                  ("estimated_diameter_max", .num 2)])])]

/-- A malformed NeoWS asteroid: the required `estimated_diameter` field
is missing. -/
def neowsBad : Json :=
  .obj [("id", .num 5), ("close_approach_data", .arr [neowsApproach])]

/-- A NeoWS feed of 10 asteroids in which exactly item 5 is
malformed. -/
def neowsBatch : Json :=
  .obj [("near_earth_objects",
    .obj [("2025-01-01",
      .arr [neowsGood 1, neowsGood 2, neowsGood 3, neowsGood 4, neowsBad,
            neowsGood 6, neowsGood 7, neowsGood 8, neowsGood 9,
            neowsGood 10])])]

/-- A well-formed NeoWS feed of two asteroids. -/
def neowsSmallBatch : Json :=
  .obj [("near_earth_objects",
    .obj [("2025-01-01", .arr [neowsGood 1, neowsGood 2])])]

/-! ## Fetch client lemmas -/

theorem fetchLoop_persistent429 (net : Nat → AttemptResult) (key : CacheKey)
    (ttl now : Nat) (body : Nat → Option Json)
    (h : ∀ i, net i = .response 429 (body i)) :
    ∀ (remaining attempt : Nat) (redis : Option Cache),
      fetchLoop net key ttl now attempt remaining redis = (none, redis, remaining)
  | 0, _, _ => rfl
  | r + 1, attempt, redis => by
      simp only [fetchLoop, h attempt]
      rw [fetchLoop_persistent429 net key ttl now body h r (attempt + 1) redis]
      rfl

theorem fetchLoop_persistentTimeout (net : Nat → AttemptResult)
    (key : CacheKey) (ttl now : Nat) (h : ∀ i, net i = .timeout) :
    ∀ (remaining attempt : Nat) (redis : Option Cache),
      fetchLoop net key ttl now attempt remaining redis = (none, redis, remaining)
  | 0, _, _ => rfl
  | r + 1, attempt, redis => by
      simp only [fetchLoop, h attempt]
      rw [fetchLoop_persistentTimeout net key ttl now h r (attempt + 1) redis]

theorem fetchLoop_hardFailure (net : Nat → AttemptResult) (key : CacheKey)
    (ttl now : Nat) (c : Nat) (body : Option Json) (r : Nat)
    (redis : Option Cache) (hc200 : c ≠ 200) (hc429 : c ≠ 429)
    (h : net 0 = .response c body) :
    fetchLoop net key ttl now 0 (r + 1) redis = (none, redis, 1) := by
  simp only [fetchLoop, h]
  have h1 : (c == 200) = false := by simp [hc200]
  have h2 : (c == 429) = false := by simp [hc429]
  rw [h1, h2]
  rfl

theorem fetch_miss (cls apiKey : String) (maxRetries ttl : Nat)
    (net : Nat → AttemptResult) (redis : Option Cache) (now : Nat)
    (url : String) (cp : Option ParamDict)
    (hmiss : ∀ c, redis = some c →
      cacheGet c (fetchKey cls url apiKey cp) now = none) :
    fetch cls apiKey maxRetries ttl net redis now url cp =
      ⟨(fetchLoop net (fetchKey cls url apiKey cp) ttl now 0 maxRetries redis).1,
       (fetchLoop net (fetchKey cls url apiKey cp) ttl now 0 maxRetries redis).2.1,
       (fetchLoop net (fetchKey cls url apiKey cp) ttl now 0 maxRetries redis).2.2,
       callerParamsAfter apiKey cp⟩ := by
  cases redis with
  | none => rfl
  | some c => simp only [fetch, hmiss c rfl]

/-- Claim C2 (confirmed): with `max_retries = 3` and no cached entry,
`fetch` makes at most 3 network attempts against a persistently
rate-limited (429) endpoint, at most 3 against a persistently timing-out
endpoint, and exactly 1 against an endpoint persistently returning any
other non-2xx status; in all three cases it returns the failure value
`None`. -/
theorem fetch_retry_bounds :
    (∀ (cls apiKey url : String) (ttl now : Nat) (net : Nat → AttemptResult)
        (redis : Option Cache) (cp : Option ParamDict)
        (body : Nat → Option Json),
      (∀ i, net i = .response 429 (body i)) →
      (∀ c, redis = some c →
        cacheGet c (fetchKey cls url apiKey cp) now = none) →
      (fetch cls apiKey 3 ttl net redis now url cp).attempts ≤ 3 ∧
      (fetch cls apiKey 3 ttl net redis now url cp).result = none) ∧
    (∀ (cls apiKey url : String) (ttl now : Nat) (net : Nat → AttemptResult)
        (redis : Option Cache) (cp : Option ParamDict),
      (∀ i, net i = .timeout) →
      (∀ c, redis = some c →
        cacheGet c (fetchKey cls url apiKey cp) now = none) →
      (fetch cls apiKey 3 ttl net redis now url cp).attempts ≤ 3 ∧
      (fetch cls apiKey 3 ttl net redis now url cp).result = none) ∧
    (∀ (cls apiKey url : String) (ttl now : Nat) (net : Nat → AttemptResult)
        (redis : Option Cache) (cp : Option ParamDict) (c : Nat)
        (body : Nat → Option Json),
      c ≠ 200 → c ≠ 429 →
      (∀ i, net i = .response c (body i)) →
      (∀ cc, redis = some cc →
        cacheGet cc (fetchKey cls url apiKey cp) now = none) →
      (fetch cls apiKey 3 ttl net redis now url cp).attempts = 1 ∧
      (fetch cls apiKey 3 ttl net redis now url cp).result = none) := by
  refine ⟨?_, ?_, ?_⟩
  · intro cls apiKey url ttl now net redis cp body hnet hmiss
    rw [fetch_miss cls apiKey 3 ttl net redis now url cp hmiss,
        fetchLoop_persistent429 net _ ttl now body hnet 3 0 redis]
    exact ⟨le_refl 3, rfl⟩
  · intro cls apiKey url ttl now net redis cp hnet hmiss
    rw [fetch_miss cls apiKey 3 ttl net redis now url cp hmiss,
        fetchLoop_persistentTimeout net _ ttl now hnet 3 0 redis]
    exact ⟨le_refl 3, rfl⟩
  · intro cls apiKey url ttl now net redis cp c body hc200 hc429 hnet hmiss
    rw [fetch_miss cls apiKey 3 ttl net redis now url cp hmiss,
        fetchLoop_hardFailure net _ ttl now c (body 0) 2 redis hc200 hc429
          (hnet 0)]
    exact ⟨rfl, rfl⟩

/-- Witness for `fetch_retry_bounds` at concrete endpoints. -/
theorem fetch_retry_bounds_witness :
    ((fetch "DONKIService" "K" 3 86400 (fun _ => .response 429 none) none 0
        "https://api.nasa.gov/DONKI/FLR" none).attempts ≤ 3 ∧
     (fetch "DONKIService" "K" 3 86400 (fun _ => .response 429 none) none 0
        "https://api.nasa.gov/DONKI/FLR" none).result = none) ∧
    ((fetch "APODService" "K" 3 86400 (fun _ => .timeout) none 0
        "https://api.nasa.gov/planetary/apod" none).attempts ≤ 3 ∧
     (fetch "APODService" "K" 3 86400 (fun _ => .timeout) none 0
        "https://api.nasa.gov/planetary/apod" none).result = none) ∧
    ((fetch "APODService" "K" 3 86400 (fun _ => .response 500 none) none 0
        "https://api.nasa.gov/planetary/apod" none).attempts = 1 ∧
     (fetch "APODService" "K" 3 86400 (fun _ => .response 500 none) none 0
        "https://api.nasa.gov/planetary/apod" none).result = none) :=
  ⟨fetch_retry_bounds.1 "DONKIService" "K"
      "https://api.nasa.gov/DONKI/FLR" 86400 0 (fun _ => .response 429 none)
      none none (fun _ => none) (fun _ => rfl) (fun c h => by cases h),
   fetch_retry_bounds.2.1 "APODService" "K"
      "https://api.nasa.gov/planetary/apod" 86400 0 (fun _ => .timeout)
      none none (fun _ => rfl) (fun c h => by cases h),
   fetch_retry_bounds.2.2 "APODService" "K"
      "https://api.nasa.gov/planetary/apod" 86400 0
      (fun _ => .response 500 none) none none 500 (fun _ => none)
      (by decide) (by decide) (fun _ => rfl) (fun c h => by cases h)⟩

theorem cacheGet_cacheSet_self (c : Cache) (k : CacheKey) (v : Json)
    (expiry now : Nat) (h : now < expiry) :
    cacheGet (cacheSet c k v expiry) k now = some v := by
  simp [cacheGet, cacheSet, List.find?, h]

theorem fetchLoop_success0 (net : Nat → AttemptResult) (key : CacheKey)
    (ttl now : Nat) (p : Json) (r : Nat) (redis : Option Cache)
    (h0 : net 0 = .response 200 (some p)) :
    fetchLoop net key ttl now 0 (r + 1) redis =
      (some p, redis.map (fun c => cacheSet c key p (now + ttl)), 1) := by
  simp only [fetchLoop, h0]
  rfl

/-- Claim C5 (confirmed): with a Redis client attached and no cached
entry, a fetch whose first attempt succeeds writes the payload into the
cache under the call's key with expiry `now + ttl` — the cache write is
part of the state `fetch` returns — and a second fetch with identical
(source class, endpoint, params) at any instant inside the TTL window
returns the identical payload while making zero network attempts,
whatever the network would have answered. -/
theorem fetch_cache_roundtrip (cls apiKey url : String)
    (cp : Option ParamDict) (c : Cache) (maxR ttl now now2 : Nat)
    (net net2 : Nat → AttemptResult) (p : Json) (hmr : 0 < maxR)
    (hmiss : cacheGet c (fetchKey cls url apiKey cp) now = none)
    (h0 : net 0 = .response 200 (some p)) (hwin : now2 < now + ttl) :
    (fetch cls apiKey maxR ttl net (some c) now url cp).result = some p ∧
    (fetch cls apiKey maxR ttl net (some c) now url cp).redis =
      some (cacheSet c (fetchKey cls url apiKey cp) p (now + ttl)) ∧
    (fetch cls apiKey maxR ttl net2
        (some (cacheSet c (fetchKey cls url apiKey cp) p (now + ttl)))
        now2 url cp).result = some p ∧
    (fetch cls apiKey maxR ttl net2
        (some (cacheSet c (fetchKey cls url apiKey cp) p (now + ttl)))
        now2 url cp).attempts = 0 := by
  obtain ⟨r, rfl⟩ : ∃ r, maxR = r + 1 := ⟨maxR - 1, by omega⟩
  have hget := cacheGet_cacheSet_self c (fetchKey cls url apiKey cp) p
    (now + ttl) now2 hwin
  refine ⟨?_, ?_, ?_, ?_⟩
  · simp only [fetch, hmiss, fetchLoop_success0 net _ ttl now p r (some c) h0]
  · simp only [fetch, hmiss, fetchLoop_success0 net _ ttl now p r (some c) h0]
    rfl
  · simp only [fetch, hget]
  · simp only [fetch, hget]

/-- Witness for `fetch_cache_roundtrip`: a concrete APOD fetch cached,
then re-read one second later. -/
theorem fetch_cache_roundtrip_witness :
    (fetch "APODService" "K" 3 86400 (fun _ => .response 200 (some (.str "pic")))
        (some []) 0 "https://api.nasa.gov/planetary/apod" none).result =
      some (.str "pic") ∧
    (fetch "APODService" "K" 3 86400 (fun _ => .response 200 (some (.str "pic")))
        (some []) 0 "https://api.nasa.gov/planetary/apod" none).redis =
      some (cacheSet [] (fetchKey "APODService"
        "https://api.nasa.gov/planetary/apod" "K" none) (.str "pic") 86400) ∧
    (fetch "APODService" "K" 3 86400 (fun _ => .exn)
        (some (cacheSet [] (fetchKey "APODService"
          "https://api.nasa.gov/planetary/apod" "K" none) (.str "pic") 86400))
        1 "https://api.nasa.gov/planetary/apod" none).result =
      some (.str "pic") ∧
    (fetch "APODService" "K" 3 86400 (fun _ => .exn)
        (some (cacheSet [] (fetchKey "APODService"
          "https://api.nasa.gov/planetary/apod" "K" none) (.str "pic") 86400))
        1 "https://api.nasa.gov/planetary/apod" none).attempts = 0 :=
  fetch_cache_roundtrip "APODService" "K"
    "https://api.nasa.gov/planetary/apod" none [] 3 86400 0 1
    (fun _ => .response 200 (some (.str "pic"))) (fun _ => .exn) (.str "pic")
    (by decide) rfl rfl (by decide)

theorem fetchLoop_noSuccess (net : Nat → AttemptResult) (key : CacheKey)
    (ttl now : Nat) :
    ∀ (remaining attempt : Nat) (redis : Option Cache),
      (∀ i, attempt ≤ i → i < attempt + remaining →
        ∀ p, net i ≠ .response 200 (some p)) →
      (fetchLoop net key ttl now attempt remaining redis).1 = none
  | 0, _, _, _ => rfl
  | r + 1, attempt, redis, h => by
      simp only [fetchLoop]
      cases hnet : net attempt with
      | response s b =>
          by_cases hs : s = 200
          · subst hs
            cases b with
            | some p => exact absurd hnet (h attempt (le_refl _) (by omega) p)
            | none => rfl
          · by_cases h4 : s = 429
            · subst h4
              have ih := fetchLoop_noSuccess net key ttl now r (attempt + 1)
                redis (fun i h1 h2 p => h i (by omega) (by omega) p)
              simpa using ih
            · have hs2 : (s == 200) = false := by simp [hs]
              have hs3 : (s == 429) = false := by simp [h4]
              simp only [hs2, hs3, Bool.false_eq_true, if_false]
      | timeout =>
          have ih := fetchLoop_noSuccess net key ttl now r (attempt + 1)
            redis (fun i h1 h2 p => h i (by omega) (by omega) p)
          simpa using ih
      | exn => rfl

/-- Claim C8 (confirmed): when the cache lookup misses (or no Redis
client is attached), `fetch` maps every network behaviour with no
successfully parsed 200 response inside the retry budget — persistent
non-200 statuses, timeouts through the last attempt, and arbitrary
exceptions, in any mix — to the single failure value `None`. -/
theorem fetch_failure_yields_none (cls apiKey url : String)
    (cp : Option ParamDict) (redis : Option Cache) (maxR ttl now : Nat)
    (net : Nat → AttemptResult)
    (hmiss : ∀ c, redis = some c →
      cacheGet c (fetchKey cls url apiKey cp) now = none)
    (hfail : ∀ i, i < maxR → ∀ p, net i ≠ .response 200 (some p)) :
    (fetch cls apiKey maxR ttl net redis now url cp).result = none := by
  rw [fetch_miss cls apiKey maxR ttl net redis now url cp hmiss]
  exact fetchLoop_noSuccess net _ ttl now maxR 0 redis
    (fun i h1 h2 p => hfail i (by omega) p)

/-- Witness for `fetch_failure_yields_none`: a request that raises a
transport exception on every attempt. -/
theorem fetch_failure_yields_none_witness :
    (fetch "EPICService" "K" 3 86400 (fun _ => .exn) none 0
      "https://api.nasa.gov/EPIC/api/natural/available" none).result =
      none :=
  fetch_failure_yields_none "EPICService" "K"
    "https://api.nasa.gov/EPIC/api/natural/available" none none 3 86400 0
    (fun _ => .exn) (fun c h => by cases h)
    (fun i _ p h => by cases h)

/-- Claim C9 (counterexample): a call that supplies an empty params dict
— as `EPICService.get_imagery` does — leaves the caller's dictionary
unchanged and without any `api_key` entry, because `if not params:
params = {}` rebinds the local name instead of mutating the empty dict;
so not every call mutates the caller-supplied dict. -/
theorem fetch_empty_params_unchanged :
    (fetch "EPICService" "DEMO_KEY" 3 86400 (fun _ => .exn) none 0
        "https://api.nasa.gov/EPIC/api/natural/available"
        (some [])).callerParams = some [] ∧
    dictGet [] "api_key" = none :=
  ⟨rfl, rfl⟩

theorem fetch_callerParams (cls apiKey : String) (maxR ttl : Nat)
    (net : Nat → AttemptResult) (redis : Option Cache) (now : Nat)
    (url : String) (cp : Option ParamDict) :
    (fetch cls apiKey maxR ttl net redis now url cp).callerParams =
      callerParamsAfter apiKey cp := by
  cases redis with
  | none => rfl
  | some c =>
      simp only [fetch]
      cases cacheGet c (fetchKey cls url apiKey cp) now <;> rfl

theorem dictGet_dictSet_self : ∀ (d : ParamDict) (k : String) (v : Json),
    dictGet (dictSet d k v) k = some v
  | [], k, v => by simp [dictSet, dictGet]
  | kv :: d, k, v => by
      by_cases h : kv.1 == k
      · simp [dictSet, dictGet, h]
      · simp only [dictSet, h, Bool.false_eq_true, if_false]
        simp only [dictGet, List.find?, h]
        exact dictGet_dictSet_self d k v

theorem dictGet_dictSet_ne : ∀ (d : ParamDict) (k k2 : String) (v : Json),
    k2 ≠ k → dictGet (dictSet d k v) k2 = dictGet d k2
  | [], k, k2, v, hne => by
      have hne2 : (k == k2) = false := by simp [Ne.symm hne]
      simp [dictSet, dictGet, List.find?, hne2]
  | kv :: d, k, k2, v, hne => by
      by_cases h : kv.1 == k
      · have hk : kv.1 = k := by simpa using h
        have hne2 : (k == k2) = false := by simp [Ne.symm hne]
        have hne3 : (kv.1 == k2) = false := by rw [hk]; exact hne2
        simp only [dictSet, h, if_true, dictGet, List.find?, hne2, hne3]
      · simp only [dictSet, h, Bool.false_eq_true, if_false]
        simp only [dictGet, List.find?]
        cases h2 : kv.1 == k2 with
        | true => rfl
        | false => exact dictGet_dictSet_ne d k k2 v hne

theorem mem_dictSet_self : ∀ (d : ParamDict) (k : String) (v : Json),
    (k, v) ∈ dictSet d k v
  | [], k, v => by simp [dictSet]
  | kv :: d, k, v => by
      by_cases h : kv.1 == k
      · simp [dictSet, h]
      · simp only [dictSet, h, Bool.false_eq_true, if_false]
        exact List.mem_cons_of_mem kv (mem_dictSet_self d k v)

theorem insertByKey_perm (p : String × Json) :
    ∀ l : ParamDict, List.Perm (insertByKey p l) (p :: l)
  | [] => List.Perm.refl _
  | q :: qs => by
      simp only [insertByKey]
      split
      · exact List.Perm.refl _
      · exact ((insertByKey_perm p qs).cons q).trans (List.Perm.swap p q qs)

theorem sortParams_perm : ∀ l : ParamDict, List.Perm (sortParams l) l
  | [] => List.Perm.refl _
  | p :: ps =>
      (insertByKey_perm p (sortParams ps)).trans ((sortParams_perm ps).cons p)

/-- Claim C9 (amended): when the caller supplies a NON-empty params
dict, `fetch` does set `params["api_key"]` in the caller's own dict
before building the cache key: afterwards the caller's dict maps
`api_key` to the service key, every other key is unmodified, and the
cache key's parameter list contains the `api_key` entry. -/
theorem fetch_params_mutation (cls apiKey : String) (maxR ttl : Nat)
    (net : Nat → AttemptResult) (redis : Option Cache) (now : Nat)
    (url : String) (d : ParamDict) (hne : d ≠ []) :
    (fetch cls apiKey maxR ttl net redis now url (some d)).callerParams =
      some (dictSet d "api_key" (.str apiKey)) ∧
    dictGet (dictSet d "api_key" (.str apiKey)) "api_key" =
      some (.str apiKey) ∧
    (∀ k, k ≠ "api_key" →
      dictGet (dictSet d "api_key" (.str apiKey)) k = dictGet d k) ∧
    ("api_key", Json.str apiKey) ∈ (fetchKey cls url apiKey (some d)).params := by
  obtain ⟨kv, d', rfl⟩ : ∃ kv d', d = kv :: d' := by
    cases d with
    | nil => exact absurd rfl hne
    | cons kv d' => exact ⟨kv, d', rfl⟩
  refine ⟨?_, dictGet_dictSet_self _ _ _,
    fun k hk => dictGet_dictSet_ne _ _ k _ hk, ?_⟩
  · rw [fetch_callerParams]
    rfl
  · show ("api_key", Json.str apiKey) ∈
      sortParams (effParams apiKey (some (kv :: d')))
    exact (sortParams_perm _).mem_iff.mpr (mem_dictSet_self _ _ _)

/-- Witness for `fetch_params_mutation` on the params dict
`{"date": "2024-06-01"}` that `APODService.get_apod` builds. -/
theorem fetch_params_mutation_witness :
    (fetch "APODService" "K" 3 86400 (fun _ => .exn) none 0
        "https://api.nasa.gov/planetary/apod"
        (some [("date", .str "2024-06-01")])).callerParams =
      some (dictSet [("date", .str "2024-06-01")] "api_key" (.str "K")) ∧
    dictGet (dictSet [("date", .str "2024-06-01")] "api_key" (.str "K"))
      "api_key" = some (.str "K") ∧
    (∀ k, k ≠ "api_key" →
      dictGet (dictSet [("date", .str "2024-06-01")] "api_key" (.str "K")) k =
        dictGet [("date", .str "2024-06-01")] k) ∧
    ("api_key", Json.str "K") ∈
      (fetchKey "APODService" "https://api.nasa.gov/planetary/apod" "K"
        (some [("date", .str "2024-06-01")])).params :=
  fetch_params_mutation "APODService" "K" 3 86400 (fun _ => .exn) none 0
    "https://api.nasa.gov/planetary/apod" [("date", .str "2024-06-01")]
    (by decide)

/-! ## Ingestion task theorems -/

/-- Claim C1 (counterexample): `ingest_apod` performs no existence
check.  Running it over fresh upstream data inserts one row and returns
success; running it a second time over identical upstream data does not
skip the already-stored natural key — the unconditional re-insert
violates the store's uniqueness constraint and the job raises into
retry, so the second run is not a success with a skipped duplicate. -/
theorem ingest_apod_rerun_raises :
    (ingest_apod (some apodSample) [] 7).1 = .returned (successCountJson 1) ∧
    (ingest_apod (some apodSample)
      (ingest_apod (some apodSample) [] 7).2 8).1 =
        .retryRaised "IntegrityError" ∧
    ∀ o, (ingest_apod (some apodSample)
      (ingest_apod (some apodSample) [] 7).2 8).1 ≠ .returned o := by
  refine ⟨rfl, rfl, fun o h => ?_⟩
  rw [show (ingest_apod (some apodSample)
      (ingest_apod (some apodSample) [] 7).2 8).1 =
        TaskResult.retryRaised "IntegrityError" from rfl] at h
  exact TaskResult.noConfusion h

/-- Claim C3 (counterexample): when `ingest_apod` encounters an item
whose natural key (the APOD date) is already stored, this is not a
benign skip: the unconditional insert violates the uniqueness
constraint, the transaction rolls back and the job raises into
retry. -/
theorem ingest_apod_duplicate_fatal :
    (ingest_apod (some (.obj [("date", .str "2025-03-03")]))
        [apodExistingRow] 5).1 = .retryRaised "IntegrityError" ∧
    (ingest_apod (some (.obj [("date", .str "2025-03-03")]))
        [apodExistingRow] 5).2 = [apodExistingRow] :=
  ⟨rfl, rfl⟩

/-- Claim C4 (code bug): on a batch of 10 asteroids in which exactly
item 5 is malformed (missing `estimated_diameter`), the job raises — a
`KeyError` escapes `save_asteroids` into the task's `except` and
`self.retry` — the transaction rolls back, and none of the 9 well-formed
items is persisted.  There is no per-item isolation, no failed-item
count, and no `PartiallyFailed` terminal state in the code. -/
theorem ingest_asteroids_malformed_item_raises :
    (ingest_asteroids_today (fun _ => none) (fun _ => none)
        (some neowsBatch) [] 0).1 =
      .retryRaised "KeyError: estimated_diameter" ∧
    (ingest_asteroids_today (fun _ => none) (fun _ => none)
        (some neowsBatch) [] 0).2 = [] :=
  ⟨rfl, rfl⟩

/-- Claim C6 (counterexample): a store failure does propagate past the
job boundary: with the natural key already stored, `ingest_apod` ends by
re-raising through `self.retry`, and no structured outcome value is
returned. -/
theorem ingest_apod_failure_propagates :
    (ingest_apod (some (.obj [("date", .str "2024-12-25"),
        ("url", .str "https://apod/y")])) [apodStoredRowY] 2).1 =
      .retryRaised "IntegrityError" ∧
    ∀ o, (ingest_apod (some (.obj [("date", .str "2024-12-25"),
        ("url", .str "https://apod/y")])) [apodStoredRowY] 2).1 ≠
      .returned o := by
  refine ⟨rfl, fun o h => ?_⟩
  rw [show (ingest_apod (some (.obj [("date", .str "2024-12-25"),
      ("url", .str "https://apod/y")])) [apodStoredRowY] 2).1 =
        TaskResult.retryRaised "IntegrityError" from rfl] at h
  exact TaskResult.noConfusion h

/-- Claim C7 (counterexample): the batch task launches 13 sub-tasks and
reports `task_count = 13`, not one job for each of the 16 entity
kinds. -/
theorem ingest_all_task_count_not_16 :
    (ingest_all_nasa_data (fun i _ => i)).task_count = 13 ∧
    (ingest_all_nasa_data (fun i _ => i)).task_count ≠ 16 :=
  ⟨rfl, by decide⟩

/-- Claim C7 (amended): `ingest_all_nasa_data` enqueues its fixed list
of 13 ingestion sub-tasks without waiting for any to complete (two DONKI
tasks; GIBS, OpenScience, SatelliteSituationCenter and TrekWMS have no
ingestion task), returns the queued status, and reports exactly one task
id per launched job, so `task_count` equals both the number of launched
jobs and the length of `task_ids`. -/
theorem ingest_all_launches_13 (enqueue : Nat → String → Nat) :
    (ingest_all_nasa_data enqueue).status = "queued" ∧
    (ingest_all_nasa_data enqueue).task_count = ingestAllSubtasks.length ∧
    (ingest_all_nasa_data enqueue).task_count = 13 ∧
    (ingest_all_nasa_data enqueue).task_ids.length =
      (ingest_all_nasa_data enqueue).task_count := by
  refine ⟨rfl, ?_, ?_, rfl⟩ <;>
    simp [ingest_all_nasa_data, ingestAllSubtasks]

/-- Claim C10 (confirmed): for a list-shaped APOD fetch result the
success return of `ingest_apod` evaluates
`len(items) if isinstance(data, list) else 1`, and the name `items` is
bound only inside the nested `save_apod` coroutine, not in the task
frame; so whenever the commit succeeded the job raises `NameError`
after the rows were committed, the handler turns it into a retry, and a
list-shaped fetch result can never produce a returned success — the
only returnable outcome is the no-data error dict. -/
theorem ingest_apod_list_name_error (xs : List Json) (store : List ApodRow)
    (now : Nat) (hne : xs ≠ []) :
    (∀ o, (ingest_apod (some (.arr xs)) store now).1 = .returned o →
      o = apodNoDataJson) ∧
    (∀ rows store2,
      mkApodRows now xs = .ok rows →
      commitApod rows store = .ok store2 →
      ingest_apod (some (.arr xs)) store now =
        (.retryRaised "NameError: name items is not defined", store2)) := by
  constructor
  · intro o h
    by_cases ht : truthy (.arr xs) = true
    · cases hm : mkApodRows now xs with
      | error e =>
          have hh : ingest_apod (some (.arr xs)) store now =
              (.retryRaised e, store) := by
            simp [ingest_apod, apodItems, ht, hm]
          rw [hh] at h
          exact absurd h (fun hc => TaskResult.noConfusion hc)
      | ok rows =>
          cases hc : commitApod rows store with
          | error e =>
              have hh : ingest_apod (some (.arr xs)) store now =
                  (.retryRaised e, store) := by
                simp [ingest_apod, apodItems, Json.isList, ht, hm, hc]
              rw [hh] at h
              exact absurd h (fun hd => TaskResult.noConfusion hd)
          | ok store2 =>
              have hh : ingest_apod (some (.arr xs)) store now =
                  (.retryRaised "NameError: name items is not defined",
                   store2) := by
                simp [ingest_apod, apodItems, Json.isList, ht, hm, hc, ingestApodLocals]
              rw [hh] at h
              exact absurd h (fun hd => TaskResult.noConfusion hd)
    · have ht2 : truthy (.arr xs) = false := by
        cases hb : truthy (.arr xs) with
        | true => exact absurd hb ht
        | false => rfl
      have hh : ingest_apod (some (.arr xs)) store now =
          (.returned apodNoDataJson, store) := by
        simp [ingest_apod, ht2]
      rw [hh] at h
      exact (TaskResult.returned.inj h).symm
  · intro rows store2 hm hc
    have ht : truthy (.arr xs) = true := by
      cases xs with
      | nil => exact absurd rfl hne
      | cons x xs2 => simp [truthy]
    simp [ingest_apod, apodItems, Json.isList, ht, hm, hc, ingestApodLocals]

/-- Witness for `ingest_apod_list_name_error`: a one-item list payload
is committed and then the job raises the `NameError` into retry. -/
theorem ingest_apod_list_name_error_witness :
    ingest_apod (some (.arr [apodSample])) [] 7 =
      (.retryRaised "NameError: name items is not defined",
       [apodSampleRow7]) :=
  (ingest_apod_list_name_error [apodSample] [] 7
    (List.cons_ne_nil apodSample [])).2 [apodSampleRow7] [apodSampleRow7]
    rfl rfl

/-- Claim C6 (amended): a job returns a structured outcome only on the
non-exception paths — a fetch yielding no data returns the error dict
and leaves the store unchanged — while an exception inside the job
(here: the commit raising a uniqueness violation) is re-raised through
`self.retry`, so after the retry budget the failure propagates past the
job boundary as an exception, not as a structured outcome; the
transaction is rolled back. -/
theorem ingest_apod_outcome_paths (store : List ApodRow) (now : Nat) :
    (ingest_apod none store now = (.returned apodNoDataJson, store)) ∧
    (∀ d rows e, truthy d = true →
      mkApodRows now (apodItems d) = .ok rows →
      commitApod rows store = .error e →
      ingest_apod (some d) store now = (.retryRaised e, store)) := by
  refine ⟨rfl, fun d rows e ht hrows hcommit => ?_⟩
  simp [ingest_apod, ht, hrows, hcommit]

/-- Witness for `ingest_apod_outcome_paths`: the no-data path returns
the error dict; a duplicate date makes the commit raise. -/
theorem ingest_apod_outcome_paths_witness :
    ingest_apod none [] 0 = (.returned apodNoDataJson, []) ∧
    ingest_apod (some (.obj [("date", .str "2025-03-03")]))
        [apodExistingRow] 4 =
      (.retryRaised "IntegrityError", [apodExistingRow]) :=
  ⟨(ingest_apod_outcome_paths [] 0).1,
   (ingest_apod_outcome_paths [apodExistingRow] 4).2
     (.obj [("date", .str "2025-03-03")])
     [⟨none, none, none, none, .str "image", none, some (.str "2025-03-03"),
       none, 4⟩]
     "IntegrityError" rfl rfl rfl⟩

/-! ## Uniqueness-invariant lemmas -/

theorem commitApod_inv : ∀ (staged store store2 : List ApodRow),
    commitApod staged store = .ok store2 → apodInv store → apodInv store2
  | [], store, store2, h, hinv => by
      simp only [commitApod] at h
      injection h with h2
      rw [← h2]
      exact hinv
  | r :: rest, store, store2, h, hinv => by
      simp only [commitApod] at h
      by_cases hc : store.any (fun s => apodConflict s r) = true
      · rw [if_pos hc] at h
        exact absurd h (fun hh => Except.noConfusion hh)
      · rw [if_neg hc] at h
        refine commitApod_inv rest (store ++ [r]) store2 h ?_
        rw [apodInv, List.pairwise_append]
        refine ⟨hinv, List.pairwise_singleton _ _, ?_⟩
        intro a ha b hb
        rw [List.mem_singleton] at hb
        subst hb
        have hfalse : store.any (fun s => apodConflict s b) = false :=
          (Bool.not_eq_true _).mp hc
        have hall := List.any_eq_false.mp hfalse
        exact Bool.eq_false_iff.mpr (hall a ha)

theorem ingest_apod_inv (data : Option Json) (store : List ApodRow)
    (now : Nat) (hinv : apodInv store) :
    apodInv (ingest_apod data store now).2 := by
  cases data with
  | none => exact hinv
  | some d =>
      by_cases ht : truthy d = true
      · cases hm : mkApodRows now (apodItems d) with
        | error e =>
            have hh : ingest_apod (some d) store now = (.retryRaised e, store) := by
              simp [ingest_apod, ht, hm]
            rw [hh]
            exact hinv
        | ok rows =>
            cases hc : commitApod rows store with
            | error e =>
                have hh : ingest_apod (some d) store now =
                    (.retryRaised e, store) := by
                  simp [ingest_apod, ht, hm, hc]
                rw [hh]
                exact hinv
            | ok store2 =>
                have hh : (ingest_apod (some d) store now).2 = store2 := by
                  simp only [ingest_apod, ht, if_true, hm, hc]
                  cases hl : d.isList <;> rfl
                rw [hh]
                exact commitApod_inv rows store store2 hc hinv
      · have ht2 : truthy d = false := by
          cases hb : truthy d with
          | true => exact absurd hb ht
          | false => rfl
        have hh : ingest_apod (some d) store now =
            (.returned apodNoDataJson, store) := by
          simp [ingest_apod, ht2]
        rw [hh]
        exact hinv

theorem mkAsteroidRow_neoId (iso : String → Option String)
    (num : String → Option Int) (now : Nat) (a : Json) (neoId : Option Json)
    (approach : Json) (row : AsteroidRow)
    (h : mkAsteroidRow iso num now a neoId approach = .ok row) :
    row.neo_id = neoId := by
  unfold mkAsteroidRow at h
  cases hf : mkAsteroidFields iso num a approach with
  | error e =>
      rw [hf] at h
      exact absurd h (fun hh => Except.noConfusion hh)
  | ok f =>
      rw [hf] at h
      injection h with h2
      rw [← h2]

/-- Complete characterization of a successful `processAsteroid` step. -/
theorem processAsteroid_ok (iso : String → Option String)
    (num : String → Option Int) (now : Nat)
    (store staged staged' : List AsteroidRow) (a : Json)
    (h : processAsteroid iso num now store staged a = .ok staged') :
    ∃ neoId, a.get? "id" = .ok neoId ∧
      ((store.any (rowMatch neoId) = true ∧ staged' = staged) ∨
       (store.any (rowMatch neoId) = false ∧
        ∃ ca, a.getD "close_approach_data" (.arr []) = .ok ca ∧
          ((truthy ca = false ∧ staged' = staged) ∨
           (truthy ca = true ∧ ∃ approach row,
             pyIndex0 ca = .ok approach ∧
             mkAsteroidRow iso num now a neoId approach = .ok row ∧
             staged' = staged ++ [row])))) := by
  unfold processAsteroid at h
  cases hid : a.get? "id" with
  | error e =>
      simp only [hid] at h
      exact absurd h (fun hh => Except.noConfusion hh)
  | ok neoId =>
      simp only [hid] at h
      refine ⟨neoId, rfl, ?_⟩
      by_cases hany : store.any (rowMatch neoId) = true
      · rw [if_pos hany] at h
        injection h with h2
        exact Or.inl ⟨hany, h2.symm⟩
      · have hany2 : store.any (rowMatch neoId) = false :=
          (Bool.not_eq_true _).mp hany
        rw [if_neg hany] at h
        cases hca : a.getD "close_approach_data" (.arr []) with
        | error e =>
            simp only [hca] at h
            exact absurd h (fun hh => Except.noConfusion hh)
        | ok ca =>
            simp only [hca] at h
            refine Or.inr ⟨hany2, ca, rfl, ?_⟩
            by_cases htr : truthy ca = true
            · rw [if_pos htr] at h
              cases hidx : pyIndex0 ca with
              | error e =>
                  simp only [hidx] at h
                  exact absurd h (fun hh => Except.noConfusion hh)
              | ok approach =>
                  simp only [hidx] at h
                  cases hrow : mkAsteroidRow iso num now a neoId approach with
                  | error e =>
                      simp only [hrow] at h
                      exact absurd h (fun hh => Except.noConfusion hh)
                  | ok row =>
                      simp only [hrow] at h
                      injection h with h2
                      exact Or.inr ⟨htr, approach, row, rfl, hrow, h2.symm⟩
            · have htr2 : truthy ca = false := (Bool.not_eq_true _).mp htr
              rw [if_neg htr] at h
              injection h with h2
              exact Or.inl ⟨htr2, h2.symm⟩

theorem saveItems_ok (iso : String → Option String)
    (num : String → Option Int) (now : Nat) (store : List AsteroidRow) :
    ∀ (items : List Json) (staged staged' : List AsteroidRow),
      saveItems iso num now store items staged = .ok staged' →
      ∃ t, staged' = staged ++ t
  | [], staged, staged', h => by
      simp only [saveItems] at h
      injection h with h2
      exact ⟨[], by rw [← h2, List.append_nil]⟩
  | a :: rest, staged, staged', h => by
      simp only [saveItems] at h
      cases hp : processAsteroid iso num now store staged a with
      | error e =>
          rw [hp] at h
          exact absurd h (fun hh => Except.noConfusion hh)
      | ok staged1 =>
          rw [hp] at h
          obtain ⟨neoId, _, hcase⟩ :=
            processAsteroid_ok iso num now store staged staged1 a hp
          obtain ⟨t2, ht2⟩ := saveItems_ok iso num now store rest staged1 staged' h
          rcases hcase with ⟨_, h1⟩ | ⟨_, ca, _, ⟨_, h1⟩ | ⟨_, ap, row, _, _, h1⟩⟩
          · exact ⟨t2, by rw [ht2, h1]⟩
          · exact ⟨t2, by rw [ht2, h1]⟩
          · exact ⟨[row] ++ t2, by rw [ht2, h1, List.append_assoc]⟩

theorem saveGroups_ok (iso : String → Option String)
    (num : String → Option Int) (now : Nat) (store : List AsteroidRow) :
    ∀ (gs : List Json) (staged staged' : List AsteroidRow),
      saveGroups iso num now store gs staged = .ok staged' →
      ∃ t, staged' = staged ++ t
  | [], staged, staged', h => by
      simp only [saveGroups] at h
      injection h with h2
      exact ⟨[], by rw [← h2, List.append_nil]⟩
  | g :: rest, staged, staged', h => by
      simp only [saveGroups] at h
      cases hit : pyIter g with
      | error e =>
          rw [hit] at h
          exact absurd h (fun hh => Except.noConfusion hh)
      | ok items =>
          simp only [hit] at h
          cases hsi : saveItems iso num now store items staged with
          | error e =>
              simp only [hsi] at h
              exact absurd h (fun hh => Except.noConfusion hh)
          | ok staged1 =>
              simp only [hsi] at h
              obtain ⟨t1, ht1⟩ := saveItems_ok iso num now store items staged staged1 hsi
              obtain ⟨t2, ht2⟩ := saveGroups_ok iso num now store rest staged1 staged' h
              exact ⟨t1 ++ t2, by rw [ht2, ht1, List.append_assoc]⟩

theorem commitAsteroids_append :
    ∀ (staged store store2 : List AsteroidRow),
    commitAsteroids staged store = .ok store2 → store2 = store ++ staged
  | [], store, store2, h => by
      simp only [commitAsteroids] at h
      injection h with h2
      rw [← h2, List.append_nil]
  | r :: rest, store, store2, h => by
      simp only [commitAsteroids] at h
      by_cases hc : store.any (fun s => asteroidConflict s r) = true
      · rw [if_pos hc] at h
        exact absurd h (fun hh => Except.noConfusion hh)
      · rw [if_neg hc] at h
        rw [commitAsteroids_append rest (store ++ [r]) store2 h,
          List.append_assoc]
        rfl

theorem commitAsteroids_inv : ∀ (staged store store2 : List AsteroidRow),
    commitAsteroids staged store = .ok store2 → asteroidInv store →
    asteroidInv store2
  | [], store, store2, h, hinv => by
      simp only [commitAsteroids] at h
      injection h with h2
      rw [← h2]
      exact hinv
  | r :: rest, store, store2, h, hinv => by
      simp only [commitAsteroids] at h
      by_cases hc : store.any (fun s => asteroidConflict s r) = true
      · rw [if_pos hc] at h
        exact absurd h (fun hh => Except.noConfusion hh)
      · rw [if_neg hc] at h
        refine commitAsteroids_inv rest (store ++ [r]) store2 h ?_
        rw [asteroidInv, List.pairwise_append]
        refine ⟨hinv, List.pairwise_singleton _ _, ?_⟩
        intro a ha b hb
        rw [List.mem_singleton] at hb
        subst hb
        have hfalse : store.any (fun s => asteroidConflict s b) = false :=
          (Bool.not_eq_true _).mp hc
        have hall := List.any_eq_false.mp hfalse
        exact Bool.eq_false_iff.mpr (hall a ha)

theorem ingest_asteroids_inv (iso : String → Option String)
    (num : String → Option Int) (data : Option Json)
    (store : List AsteroidRow) (now : Nat) (hinv : asteroidInv store) :
    asteroidInv (ingest_asteroids_today iso num data store now).2 := by
  cases data with
  | none => exact hinv
  | some d =>
      by_cases ht : truthy d = true
      · cases hcont : pyContains d "near_earth_objects" with
        | error e =>
            have hh : ingest_asteroids_today iso num (some d) store now =
                (.retryRaised e, store) := by
              simp [ingest_asteroids_today, ht, hcont]
            rw [hh]
            exact hinv
        | ok b =>
            cases b with
            | false =>
                have hh : ingest_asteroids_today iso num (some d) store now =
                    (.returned errorJson, store) := by
                  simp [ingest_asteroids_today, ht, hcont]
                rw [hh]
                exact hinv
            | true =>
                cases hitem : d.item "near_earth_objects" with
                | error e =>
                    have hh : ingest_asteroids_today iso num (some d) store now =
                        (.retryRaised e, store) := by
                      simp [ingest_asteroids_today, ht, hcont, hitem]
                    rw [hh]
                    exact hinv
                | ok neo =>
                    cases hval : pyValues neo with
                    | error e =>
                        have hh : ingest_asteroids_today iso num (some d) store now =
                            (.retryRaised e, store) := by
                          simp [ingest_asteroids_today, ht, hcont, hitem, hval]
                        rw [hh]
                        exact hinv
                    | ok groups =>
                        cases hg : saveGroups iso num now store groups [] with
                        | error e =>
                            have hh : ingest_asteroids_today iso num (some d)
                                store now = (.retryRaised e, store) := by
                              simp [ingest_asteroids_today, ht, hcont, hitem,
                                hval, hg]
                            rw [hh]
                            exact hinv
                        | ok staged =>
                            cases hcmt : commitAsteroids staged store with
                            | error e =>
                                have hh : ingest_asteroids_today iso num
                                    (some d) store now =
                                    (.retryRaised e, store) := by
                                  simp [ingest_asteroids_today, ht, hcont,
                                    hitem, hval, hg, hcmt]
                                rw [hh]
                                exact hinv
                            | ok store2 =>
                                have hh : ingest_asteroids_today iso num
                                    (some d) store now =
                                    (.returned successJson, store2) := by
                                  simp [ingest_asteroids_today, ht, hcont,
                                    hitem, hval, hg, hcmt]
                                rw [hh]
                                exact commitAsteroids_inv staged store store2
                                  hcmt hinv
      · have ht2 : truthy d = false := (Bool.not_eq_true _).mp ht
        have hh : ingest_asteroids_today iso num (some d) store now =
            (.returned errorJson, store) := by
          simp [ingest_asteroids_today, ht2]
        rw [hh]
        exact hinv

/-- Claim C3 (amended): the uniqueness invariant does hold — in every
store state reachable by running `ingest_apod` or
`ingest_asteroids_today` from a store satisfying it, at most one row
exists per natural key (APOD date/url, asteroid `neo_id`) — and
`ingest_asteroids_today` treats an already-stored natural key as a
benign skip; but `ingest_apod` treats it as a fatal error (uniqueness
violation raised into retry), not a benign skip. -/
theorem ingest_uniqueness_invariant :
    (∀ data store now, apodInv store →
      apodInv (ingest_apod data store now).2) ∧
    (∀ iso num data store now, asteroidInv store →
      asteroidInv (ingest_asteroids_today iso num data store now).2) :=
  ⟨fun data store now h => ingest_apod_inv data store now h,
   fun iso num data store now h =>
     ingest_asteroids_inv iso num data store now h⟩

/-- Witness for `ingest_uniqueness_invariant` on concrete runs from the
empty store. -/
theorem ingest_uniqueness_invariant_witness :
    apodInv (ingest_apod (some apodSample) [] 3).2 ∧
    asteroidInv (ingest_asteroids_today (fun _ => none) (fun _ => none)
      (some neowsSmallBatch) [] 0).2 :=
  ⟨ingest_uniqueness_invariant.1 (some apodSample) [] 3 List.Pairwise.nil,
   ingest_uniqueness_invariant.2 (fun _ => none) (fun _ => none)
     (some neowsSmallBatch) [] 0 List.Pairwise.nil⟩

/-! ## Idempotent re-ingestion lemmas -/

theorem rowMatch_self (neoId : Option Json) (row : AsteroidRow)
    (h : row.neo_id = neoId) : rowMatch neoId row = true := by
  unfold rowMatch
  rw [h]
  cases neoId with
  | none => rfl
  | some v => simp

theorem processAsteroid_rerun (iso : String → Option String)
    (num : String → Option Int) (now now2 : Nat)
    (store staged staged' store2 : List AsteroidRow) (a : Json)
    (h : processAsteroid iso num now store staged a = .ok staged')
    (hsub : ∀ r, r ∈ store ++ staged' → r ∈ store2) :
    processAsteroid iso num now2 store2 [] a = .ok [] := by
  obtain ⟨neoId, hid, hcase⟩ :=
    processAsteroid_ok iso num now store staged staged' a h
  have hskip : store2.any (rowMatch neoId) = true →
      processAsteroid iso num now2 store2 [] a = .ok [] := by
    intro hany2
    unfold processAsteroid
    simp only [hid]
    rw [if_pos hany2]
  rcases hcase with ⟨hany, h1⟩ | ⟨hany, ca, hca,
      ⟨htr2, h1⟩ | ⟨htr, ap, row, hidx, hrow, h1⟩⟩
  · obtain ⟨r, hr, hm⟩ := List.any_eq_true.mp hany
    exact hskip (List.any_eq_true.mpr
      ⟨r, hsub r (List.mem_append.mpr (Or.inl hr)), hm⟩)
  · by_cases hany2 : store2.any (rowMatch neoId) = true
    · exact hskip hany2
    · unfold processAsteroid
      simp only [hid]
      rw [if_neg hany2]
      simp only [hca]
      rw [if_neg (by rw [htr2]; exact Bool.false_ne_true)]
  · refine hskip (List.any_eq_true.mpr ⟨row, hsub row ?_,
      rowMatch_self neoId row
        (mkAsteroidRow_neoId iso num now a neoId ap row hrow)⟩)
    rw [h1]
    exact List.mem_append.mpr (Or.inr (List.mem_append.mpr
      (Or.inr (List.mem_singleton.mpr rfl))))

theorem saveItems_rerun (iso : String → Option String)
    (num : String → Option Int) (now now2 : Nat)
    (store store2 : List AsteroidRow) :
    ∀ (items : List Json) (staged staged' : List AsteroidRow),
      saveItems iso num now store items staged = .ok staged' →
      (∀ r, r ∈ store ++ staged' → r ∈ store2) →
      saveItems iso num now2 store2 items [] = .ok []
  | [], _, _, _, _ => rfl
  | a :: rest, staged, staged', h, hsub => by
      simp only [saveItems] at h ⊢
      cases hp : processAsteroid iso num now store staged a with
      | error e =>
          simp only [hp] at h
          exact absurd h (fun hh => Except.noConfusion hh)
      | ok staged1 =>
          simp only [hp] at h
          obtain ⟨t, ht⟩ := saveItems_ok iso num now store rest staged1 staged' h
          have hsub1 : ∀ r, r ∈ store ++ staged1 → r ∈ store2 := by
            intro r hr
            refine hsub r ?_
            rcases List.mem_append.mp hr with h1 | h1
            · exact List.mem_append.mpr (Or.inl h1)
            · refine List.mem_append.mpr (Or.inr ?_)
              rw [ht]
              exact List.mem_append.mpr (Or.inl h1)
          rw [processAsteroid_rerun iso num now now2 store staged staged1
            store2 a hp hsub1]
          exact saveItems_rerun iso num now now2 store store2 rest staged1
            staged' h hsub

theorem saveGroups_rerun (iso : String → Option String)
    (num : String → Option Int) (now now2 : Nat)
    (store store2 : List AsteroidRow) :
    ∀ (gs : List Json) (staged staged' : List AsteroidRow),
      saveGroups iso num now store gs staged = .ok staged' →
      (∀ r, r ∈ store ++ staged' → r ∈ store2) →
      saveGroups iso num now2 store2 gs [] = .ok []
  | [], _, _, _, _ => rfl
  | g :: rest, staged, staged', h, hsub => by
      simp only [saveGroups] at h ⊢
      cases hit : pyIter g with
      | error e =>
          simp only [hit] at h
          exact absurd h (fun hh => Except.noConfusion hh)
      | ok items =>
          simp only [hit] at h
          cases hsi : saveItems iso num now store items staged with
          | error e =>
              simp only [hsi] at h
              exact absurd h (fun hh => Except.noConfusion hh)
          | ok staged1 =>
              simp only [hsi] at h
              obtain ⟨t, ht⟩ :=
                saveGroups_ok iso num now store rest staged1 staged' h
              have hsub1 : ∀ r, r ∈ store ++ staged1 → r ∈ store2 := by
                intro r hr
                refine hsub r ?_
                rcases List.mem_append.mp hr with h1 | h1
                · exact List.mem_append.mpr (Or.inl h1)
                · refine List.mem_append.mpr (Or.inr ?_)
                  rw [ht]
                  exact List.mem_append.mpr (Or.inl h1)
              have hstep := saveItems_rerun iso num now now2 store store2
                items staged staged1 hsi hsub1
              simp only [hstep]
              exact saveGroups_rerun iso num now now2 store store2 rest
                staged1 staged' h hsub

/-- Claim C1 (amended): ingestion jobs that perform the explicit
check-then-insert (here `ingest_asteroids_today`, representative of the
tasks that query for the natural key before staging a row) are
idempotent: whenever a run returns an outcome, a second run over
identical upstream data returns the same outcome and inserts zero new
records — every item whose `neo_id` is already stored is skipped.
`ingest_apod` and `ingest_tle_data` perform no such check: re-running
them attempts an unconditional insert and raises a uniqueness violation
instead of skipping (see the counterexample). -/
theorem ingest_asteroids_today_idempotent (iso : String → Option String)
    (num : String → Option Int) (data : Option Json)
    (store : List AsteroidRow) (now now2 : Nat) (res : Json)
    (store2 : List AsteroidRow)
    (h : ingest_asteroids_today iso num data store now =
      (.returned res, store2)) :
    ingest_asteroids_today iso num data store2 now2 =
      (.returned res, store2) := by
  cases data with
  | none =>
      simp only [ingest_asteroids_today] at h
      injection h with h1 h2
      subst h2
      rw [← h1]
      rfl
  | some d =>
      by_cases ht : truthy d = true
      · cases hcont : pyContains d "near_earth_objects" with
        | error e =>
            have hh : ingest_asteroids_today iso num (some d) store now =
                (.retryRaised e, store) := by
              simp [ingest_asteroids_today, ht, hcont]
            rw [hh] at h
            injection h with h1 h2
            exact absurd h1 (fun hx => TaskResult.noConfusion hx)
        | ok b =>
            cases b with
            | false =>
                have hh : ingest_asteroids_today iso num (some d) store now =
                    (.returned errorJson, store) := by
                  simp [ingest_asteroids_today, ht, hcont]
                rw [hh] at h
                injection h with h1 h2
                subst h2
                rw [← h1]
                simp [ingest_asteroids_today, ht, hcont]
            | true =>
                cases hitem : d.item "near_earth_objects" with
                | error e =>
                    have hh : ingest_asteroids_today iso num (some d) store
                        now = (.retryRaised e, store) := by
                      simp [ingest_asteroids_today, ht, hcont, hitem]
                    rw [hh] at h
                    injection h with h1 h2
                    exact absurd h1 (fun hx => TaskResult.noConfusion hx)
                | ok neo =>
                    cases hval : pyValues neo with
                    | error e =>
                        have hh : ingest_asteroids_today iso num (some d)
                            store now = (.retryRaised e, store) := by
                          simp [ingest_asteroids_today, ht, hcont, hitem,
                            hval]
                        rw [hh] at h
                        injection h with h1 h2
                        exact absurd h1 (fun hx => TaskResult.noConfusion hx)
                    | ok groups =>
                        cases hg : saveGroups iso num now store groups [] with
                        | error e =>
                            have hh : ingest_asteroids_today iso num (some d)
                                store now = (.retryRaised e, store) := by
                              simp [ingest_asteroids_today, ht, hcont, hitem,
                                hval, hg]
                            rw [hh] at h
                            injection h with h1 h2
                            exact absurd h1
                              (fun hx => TaskResult.noConfusion hx)
                        | ok staged =>
                            cases hcmt : commitAsteroids staged store with
                            | error e =>
                                have hh : ingest_asteroids_today iso num
                                    (some d) store now =
                                    (.retryRaised e, store) := by
                                  simp [ingest_asteroids_today, ht, hcont,
                                    hitem, hval, hg, hcmt]
                                rw [hh] at h
                                injection h with h1 h2
                                exact absurd h1
                                  (fun hx => TaskResult.noConfusion hx)
                            | ok store2x =>
                                have hh : ingest_asteroids_today iso num
                                    (some d) store now =
                                    (.returned successJson, store2x) := by
                                  simp [ingest_asteroids_today, ht, hcont,
                                    hitem, hval, hg, hcmt]
                                rw [hh] at h
                                injection h with h1 h2
                                have happ : store2x = store ++ staged :=
                                  commitAsteroids_append staged store store2x
                                    hcmt
                                have hrerun : saveGroups iso num now2 store2
                                    groups [] = .ok [] := by
                                  refine saveGroups_rerun iso num now now2
                                    store store2 groups [] staged hg ?_
                                  intro r hr
                                  rw [← h2, happ]
                                  exact hr
                                have hh2 : ingest_asteroids_today iso num
                                    (some d) store2 now2 =
                                    (.returned successJson, store2) := by
                                  simp [ingest_asteroids_today, ht, hcont,
                                    hitem, hval, hrerun, commitAsteroids]
                                rw [hh2, ← h1]
      · have ht2 : truthy d = false := (Bool.not_eq_true _).mp ht
        have hh : ingest_asteroids_today iso num (some d) store now =
            (.returned errorJson, store) := by
          simp [ingest_asteroids_today, ht2]
        rw [hh] at h
        injection h with h1 h2
        subst h2
        rw [← h1]
        simp [ingest_asteroids_today, ht2]

/-- Witness for `ingest_asteroids_today_idempotent`: a first run over a
two-asteroid feed inserts two rows and succeeds; the theorem applied to
it shows the second run over the same feed returns the same success and
leaves the store unchanged. -/
theorem ingest_asteroids_today_idempotent_witness :
    ingest_asteroids_today (fun _ => none) (fun _ => none)
      (some neowsSmallBatch)
      (ingest_asteroids_today (fun _ => none) (fun _ => none)
        (some neowsSmallBatch) [] 0).2 9 =
    (.returned successJson,
     (ingest_asteroids_today (fun _ => none) (fun _ => none)
       (some neowsSmallBatch) [] 0).2) :=
  ingest_asteroids_today_idempotent (fun _ => none) (fun _ => none)
    (some neowsSmallBatch) [] 0 9 successJson
    (ingest_asteroids_today (fun _ => none) (fun _ => none)
      (some neowsSmallBatch) [] 0).2 rfl

end Spacescope
